import Mathlib

/-!
Verification development for the `sounk` streaming-protocol contract:
Source / Sink / Connection roles, capability tags (Kind, Mode, Protocol),
the connection handshake state machine, pull/push message contracts,
termination and error propagation, Subject fan-out, and tag-preserving
operator signatures.

The repository consists of interface declarations only; the behavioral
contracts are stated in its documentation and the specification.  The
type-level declarations (tags, Source/Sink/Connection shapes, operator
aliases) are embedded directly; the behavioral contract is embedded as an
explicit-state reference machine modelled from the specification.
-/

namespace Sounk

/-- Specifies the relation between upstream messages and emitted items.
Embeds the `Kind` const enum: `Unknown | Pull | Push`. -/
inductive Kind where
  | Unknown
  | Pull
  | Push
deriving DecidableEq, Repr

/-- Specifies the operating mode, i.e. timing constraints of emitted items.
Embeds the `Mode` const enum: `Unknown | Sync | Async`. -/
inductive Mode where
  | Unknown
  | Sync
  | Async
deriving DecidableEq, Repr

/-- Embeds the `Protocol` record of `types.d.ts`: a protocol name together
with an optional `async` flag (`true`, `false`, or absent = `none`). -/
structure Protocol where
  name : String
  async : Option Bool
deriving DecidableEq, Repr

/-- Embeds `SyncProtocol extends Protocol { async: false }`: a protocol
whose `async` field is fixed to `false`. -/
structure SyncProtocol extends Protocol where
  async_is_false : async = some false

/-- Embeds `AsyncProtocol extends Protocol { async: true }`: a protocol
whose `async` field is fixed to `true`. -/
structure AsyncProtocol extends Protocol where
  async_is_true : async = some true

/-- An observable call made by a source on a connected sink: the three
`Sink` methods `onConnect`, `onNext(item)` and `onDisconnect(error?)`.
Items have type `T`, error payloads type `E` (optional on disconnect). -/
inductive Event (T E : Type) where
  | onConnect
  | onNext (item : T)
  | onDisconnect (error : Option E)
deriving DecidableEq, Repr

/-- Whether an event is an `onDisconnect` call. -/
def Event.isDisconnect {T E : Type} : Event T E → Bool
  | .onDisconnect _ => true
  | _ => false

/-- Whether an event is an `onConnect` call. -/
def Event.isConnect {T E : Type} : Event T E → Bool
  | .onConnect => true
  | _ => false

/-- A call made by the sink on its `Connection`: `message(payload?)`
(payload absent = pull) or `disconnect()`. -/
inductive Cmd (P : Type) where
  | message (payload : Option P)
  | disconnect
deriving DecidableEq, Repr

/-- Modelled from the spec: the state of one connection between a source
and a sink.  The repository declares the `Connection` interface but ships
no implementation, so the reference source carries its kind tag, the
remaining items still to emit (an `Except.error` entry is an internal
failure of the source), and whether the connection has reached the
absorbing `Terminated` state. -/
structure ConnState (T E : Type) where
  kind : Kind
  remaining : List (Except E T)
  terminated : Bool

/-- Modelled from the spec: `Connection.message(payload?)`.  After
termination every call is a no-op.  A push-kind source ignores all
messages.  A pull-kind source answers a payload-less message (a pull) with
exactly one `onNext`, or one `onDisconnect(error)` if its next item is an
internal failure, or one `onDisconnect()` at end of stream; a
payload-carrying message has operator-specific semantics and triggers no
emission here. -/
def messageStep {T E : Type} (s : ConnState T E) (payload : Option Unit) :
    ConnState T E × List (Event T E) :=
  if s.terminated then (s, [])
  else match s.kind with
    | .Push => (s, [])
    | .Unknown => (s, [])
    | .Pull =>
      match payload with
      | some _ => (s, [])
      | none =>
        match s.remaining with
        | [] => ({ s with remaining := [], terminated := true }, [.onDisconnect none])
        | .ok x :: rest => ({ s with remaining := rest }, [.onNext x])
        | .error e :: _ =>
            ({ s with remaining := [], terminated := true }, [.onDisconnect (some e)])

/-- Modelled from the spec: `Connection.disconnect()`.  After termination
it is a no-op; otherwise the source stops emitting and settles the
connection with exactly one final `onDisconnect()` carrying no error. -/
def disconnectStep {T E : Type} (s : ConnState T E) :
    ConnState T E × List (Event T E) :=
  if s.terminated then (s, [])
  else ({ s with remaining := [], terminated := true }, [.onDisconnect none])

/-- Dispatch of one sink-side call on the connection. -/
def step {T E : Type} (s : ConnState T E) : Cmd Unit → ConnState T E × List (Event T E)
  | .message p => messageStep s p
  | .disconnect => disconnectStep s

/-- Run a sequence of sink-side calls, collecting all events the source
emits on the sink. -/
def runCmds {T E : Type} (s : ConnState T E) : List (Cmd Unit) → ConnState T E × List (Event T E)
  | [] => (s, [])
  | c :: cs =>
    ((runCmds (step s c).1 cs).1, (step s c).2 ++ (runCmds (step s c).1 cs).2)

/-- Modelled from the spec: a reference source.  The repository declares
the `Source` interface (capability tags plus `connect`) but no concrete
source, so the reference source is described by its tags and the items it
will produce (`Except.error` entries model internal failures). -/
structure SourceModel (T E : Type) where
  kind : Kind
  mode : Mode
  items : List (Except E T)

/-- Modelled from the spec: the emissions of a synchronous push source,
which emits all its items in order and then terminates; an internal
failure is translated into a single `onDisconnect(error)` after which the
source stops, and a clean end of stream into a single `onDisconnect()`. -/
def flushEvents {T E : Type} : List (Except E T) → List (Event T E)
  | [] => [.onDisconnect none]
  | .ok x :: rest => .onNext x :: flushEvents rest
  | .error e :: _ => [.onDisconnect (some e)]

/-- The first internal failure among the items a source will produce,
if any. -/
def firstError {T E : Type} : List (Except E T) → Option E
  | [] => none
  | .ok _ :: rest => firstError rest
  | .error e :: _ => some e

/-- The items a source successfully produces before its first internal
failure (all of them when no failure occurs). -/
def okPrefix {T E : Type} : List (Except E T) → List T
  | [] => []
  | .ok x :: rest => x :: okPrefix rest
  | .error _ :: _ => []

/-- Modelled from the spec: `Source.connect(sink)`.  The source constructs
the connection state and the list of calls it makes on the sink
synchronously within `connect`: `onConnect` is always called first, and
only a synchronous push source emits further events within the call. -/
def connect {T E : Type} (src : SourceModel T E) :
    ConnState T E × List (Event T E) :=
  match src.kind, src.mode with
  | .Push, .Sync =>
      (⟨.Push, [], true⟩, .onConnect :: flushEvents src.items)
  | k, _ => (⟨k, src.items, false⟩, [.onConnect])

/-- How a downstream sink of a Subject reacts to a delivered item:
it processes it normally, throws during `onNext`, or disconnects. -/
inductive Reaction where
  | ok
  | throws
  | disconnects
deriving DecidableEq, Repr

/-- Modelled from the spec: a downstream sink connected to a Subject,
identified by the order token `id` and its reaction to each item. -/
structure DSink (T : Type) where
  id : Nat
  react : T → Reaction

/-- Modelled from the spec: the Sink-side `onNext` of a Subject.  The item
is forwarded to every currently connected sink in connection order; a sink
that throws or disconnects during delivery is removed independently and
does not prevent delivery to the subsequent sinks.  Returns the remaining
connected sinks and the deliveries `(sink id, item)` in order. -/
def subjectOnNext {T : Type} (sinks : List (DSink T)) (x : T) :
    List (DSink T) × List (Nat × T) :=
  match sinks with
  | [] => ([], [])
  | s :: rest =>
    match s.react x with
    | .ok => (s :: (subjectOnNext rest x).1, (s.id, x) :: (subjectOnNext rest x).2)
    | _ => ((subjectOnNext rest x).1, (s.id, x) :: (subjectOnNext rest x).2)

/-- Modelled from the spec: the inner sink an operator with item mapping
`f` places in front of an outer sink.  Each call received by the inner
sink is translated into the calls it makes on its outer sink: `onConnect`
is propagated, `onNext` is forwarded with the mapped item, and
`onDisconnect` is forwarded unchanged. -/
def innerSinkStep {T E : Type} (f : T → T) : Event T E → List (Event T E)
  | .onConnect => [.onConnect]
  | .onNext x => [.onNext (f x)]
  | .onDisconnect e => [.onDisconnect e]

/-- Modelled from the spec: a stack of operator layers between the source
and the outermost sink.  An event arriving at the innermost sink is
processed layer by layer; each layer forwards the resulting calls to the
next outer sink. -/
def stackStep {T E : Type} : List (T → T) → Event T E → List (Event T E)
  | [], e => [e]
  | f :: fs, e => (innerSinkStep f e).flatMap (stackStep fs)

/-- Embeds `Source<T, K, M>` of `src/unnamed/part_000`: a source whose
`kind` and `mode` fields carry the statically known tags `k` and `m`
(the type parameters `K extends Kind`, `M extends Mode`). -/
structure SourceT (T : Type) (k : Kind) (m : Mode) where
  kind : Kind
  mode : Mode
  items : List T
  kind_eq : kind = k
  mode_eq : mode = m

/-- Embeds `PreservingOp<T, R>`: an operator polymorphic in the kind and
mode tags that maps a source with tags `k, m` to a source with the same
tags. -/
def PreservingOp (T R : Type) : Type :=
  ∀ (k : Kind) (m : Mode), SourceT T k m → SourceT R k m

/-- Embeds `Source<T, P>` of `src/types.d.ts`: a source whose `protocol`
field carries the statically known protocol `p` (the type parameter
`P extends Protocol`). -/
structure SourceP (T : Type) (p : Protocol) where
  protocol : Protocol
  items : List T
  protocol_eq : protocol = p

/-- Embeds `ProtocolPreservingOp<T, R>`: an operator polymorphic in the
protocol tag that maps a source with protocol `p` to a source with the
same protocol. -/
def ProtocolPreservingOp (T R : Type) : Type :=
  ∀ (p : Protocol), SourceP T p → SourceP R p

/-- Modelled from the spec: the meaning of the optional `async` flag of a
`Protocol`, read against the synchronicity of an emission trace (one
boolean per emitted item, `true` = emitted asynchronously).  `async =
true` means all items are emitted asynchronously, `async = false` means
all items are emitted synchronously, and an absent flag places no
constraint because synchronicity may vary among items. -/
def conformsProtocol (p : Protocol) (tr : List Bool) : Prop :=
  match p.async with
  | some true => ∀ b ∈ tr, b = true
  | some false => ∀ b ∈ tr, b = false
  | none => True

lemma flushEvents_countP_isConnect {T E : Type} (l : List (Except E T)) :
    (flushEvents l).countP Event.isConnect = 0 := by
  induction l with
  | nil => rfl
  | cons h t ih =>
    cases h with
    | ok x => simp [flushEvents, List.countP_cons, Event.isConnect, ih]
    | error e => rfl

lemma step_terminated {T E : Type} (s : ConnState T E) (c : Cmd Unit)
    (hs : s.terminated = true) : step s c = (s, []) := by
  cases c with
  | message p => simp [step, messageStep, hs]
  | disconnect => simp [step, disconnectStep, hs]

lemma runCmds_terminated {T E : Type} (s : ConnState T E) (cs : List (Cmd Unit))
    (hs : s.terminated = true) : runCmds s cs = (s, []) := by
  induction cs with
  | nil => rfl
  | cons c cs ih => simp [runCmds, step_terminated s c hs, ih]

lemma step_disconnect_budget {T E : Type} (s : ConnState T E) (c : Cmd Unit) :
    (step s c).2.countP Event.isDisconnect +
      (if (step s c).1.terminated then 0 else 1) ≤
      (if s.terminated then 0 else 1) := by
  by_cases hs : s.terminated
  · simp [step_terminated s c hs, hs]
  · cases c with
    | disconnect => simp [step, disconnectStep, hs, Event.isDisconnect]
    | message p =>
      cases hk : s.kind with
      | Unknown => simp [step, messageStep, hs, hk]
      | Push => simp [step, messageStep, hs, hk]
      | Pull =>
        cases p with
        | some u => simp [step, messageStep, hs, hk]
        | none =>
          cases hr : s.remaining with
          | nil => simp [step, messageStep, hs, hk, hr, Event.isDisconnect]
          | cons hd tl =>
            cases hd with
            | ok x => simp [step, messageStep, hs, hk, hr, Event.isDisconnect]
            | error e => simp [step, messageStep, hs, hk, hr, Event.isDisconnect]

lemma runCmds_disconnect_budget {T E : Type} (s : ConnState T E) (cs : List (Cmd Unit)) :
    (runCmds s cs).2.countP Event.isDisconnect +
      (if (runCmds s cs).1.terminated then 0 else 1) ≤
      (if s.terminated then 0 else 1) := by
  induction cs generalizing s with
  | nil => simp [runCmds]
  | cons c cs ih =>
    have h1 := step_disconnect_budget s c
    have h2 := ih (step s c).1
    simp only [runCmds, List.countP_append]
    omega

lemma subjectOnNext_deliveries {T : Type} (sinks : List (DSink T)) (x : T) :
    (subjectOnNext sinks x).2 = sinks.map (fun s => (s.id, x)) := by
  induction sinks with
  | nil => rfl
  | cons s rest ih =>
    cases hr : s.react x <;> simp [subjectOnNext, hr, ih]

lemma flushEvents_eq {T E : Type} (l : List (Except E T)) :
    flushEvents l = (okPrefix l).map Event.onNext ++ [Event.onDisconnect (firstError l)] := by
  induction l with
  | nil => rfl
  | cons h t ih =>
    cases h with
    | ok x => simp [flushEvents, okPrefix, firstError, ih]
    | error e => rfl

/-- C1: For every source and every sink passed to `connect`, the source
calls `sink.onConnect(connection)` exactly once, synchronously within the
`connect` call, and never calls `onNext` or `onDisconnect` on that sink
before that `onConnect` call has returned: in the list of calls made
within `connect`, `onConnect` is the first call and occurs exactly once. -/
theorem connect_onConnect_exactly_once_first {T E : Type} (src : SourceModel T E) :
    (connect src).2.head? = some Event.onConnect ∧
    (connect src).2.countP Event.isConnect = 1 := by
  cases hk : src.kind <;> cases hm : src.mode <;>
    simp [connect, hk, hm, List.countP_cons, Event.isConnect, flushEvents_countP_isConnect]

/-- C4: For every push-kind source, every `message()` call on one of its
connections is a no-op: the connection state is unchanged and no event is
emitted. -/
theorem push_message_noop {T E : Type} (s : ConnState T E) (p : Option Unit)
    (hk : s.kind = Kind.Push) : messageStep s p = (s, []) := by
  by_cases hs : s.terminated <;> simp [messageStep, hs, hk]

/-- Witness for C4 at a concrete live push connection with pending data. -/
theorem push_message_noop_witness :
    messageStep (⟨Kind.Push, [Except.ok 1], false⟩ : ConnState Nat Unit) none =
      (⟨Kind.Push, [Except.ok 1], false⟩, []) :=
  push_message_noop ⟨Kind.Push, [Except.ok 1], false⟩ none rfl

/-- C7: `disconnect()` is idempotent: a second `disconnect` after a first
one changes nothing and emits nothing, and a `disconnect` on an already
terminated connection is a no-op. -/
theorem disconnect_idempotent {T E : Type} (s : ConnState T E) :
    disconnectStep (disconnectStep s).1 = ((disconnectStep s).1, []) ∧
    (s.terminated = true → disconnectStep s = (s, [])) := by
  constructor
  · by_cases hs : s.terminated <;> simp [disconnectStep, hs]
  · intro hs
    simp [disconnectStep, hs]

/-- Witness for C7 at a concrete terminated connection. -/
theorem disconnect_idempotent_witness :
    disconnectStep (⟨Kind.Pull, [], true⟩ : ConnState Nat Unit) =
      ((⟨Kind.Pull, [], true⟩ : ConnState Nat Unit), []) :=
  (disconnect_idempotent ⟨Kind.Pull, [], true⟩).2 rfl

/-- C6: Pushing an item `x` into a Subject with downstream sinks `A`,
`B`, `C` connected in that order delivers `x` to `A`, then `B`, then `C`,
in connection order, whatever each sink's reaction is — in particular a
sink that disconnects or throws during delivery does not prevent delivery
to the subsequent sinks. -/
theorem subject_broadcast_in_order {T : Type} (A B C : DSink T) (x : T) :
    (subjectOnNext [A, B, C] x).2 = [(A.id, x), (B.id, x), (C.id, x)] := by
  simp [subjectOnNext_deliveries]

/-- C9: When the inner sink created by an operator receives `onConnect`,
it invokes `onConnect` on its outer sink, so through any stack of operator
layers the connection notification reaches the outermost sink exactly
once. -/
theorem onConnect_propagates_through_layers {T E : Type} (fs : List (T → T)) :
    stackStep (T := T) (E := E) fs Event.onConnect = [Event.onConnect] := by
  induction fs with
  | nil => rfl
  | cons f fs ih => simp [stackStep, innerSinkStep, ih]

/-- C8: A tag-preserving operator (`PreservingOp`) yields an output source
whose `Kind` and `Mode` tags equal the input source's, and a
`ProtocolPreservingOp` yields an output source whose `Protocol` equals the
input source's: the capability tags are unchanged. -/
theorem preserving_op_keeps_tags {T R : Type} (op : PreservingOp T R)
    (opP : ProtocolPreservingOp T R) (k : Kind) (m : Mode) (s : SourceT T k m)
    (p : Protocol) (sp : SourceP T p) :
    ((op k m s).kind = s.kind ∧ (op k m s).mode = s.mode) ∧
    (opP p sp).protocol = sp.protocol := by
  refine ⟨⟨?_, ?_⟩, ?_⟩
  · rw [(op k m s).kind_eq, s.kind_eq]
  · rw [(op k m s).mode_eq, s.mode_eq]
  · rw [(opP p sp).protocol_eq, sp.protocol_eq]

/-- C2: The `Terminated` state is absorbing: once a connection is
terminated, any sequence of `message`/`disconnect` calls leaves the state
unchanged and emits no event at all (so no `onNext`, `onConnect` or
`onDisconnect` occurs after termination), and along any sequence of calls
`onDisconnect` is emitted at most once. -/
theorem terminated_absorbing {T E : Type} (s : ConnState T E) (cs : List (Cmd Unit)) :
    (s.terminated = true → runCmds s cs = (s, [])) ∧
    (runCmds s cs).2.countP Event.isDisconnect ≤ 1 := by
  refine ⟨fun hs => runCmds_terminated s cs hs, ?_⟩
  have h := runCmds_disconnect_budget s cs
  split at h <;> split at h <;> omega

/-- Witness for C2 at a concrete terminated connection and a concrete
call sequence. -/
theorem terminated_absorbing_witness :
    runCmds (⟨Kind.Pull, [], true⟩ : ConnState Nat Unit)
        [Cmd.disconnect, Cmd.message none] = (⟨Kind.Pull, [], true⟩, []) ∧
    (runCmds (⟨Kind.Pull, [], true⟩ : ConnState Nat Unit)
        [Cmd.disconnect, Cmd.message none]).2.countP Event.isDisconnect ≤ 1 :=
  ⟨(terminated_absorbing ⟨Kind.Pull, [], true⟩ [Cmd.disconnect, Cmd.message none]).1 rfl,
   (terminated_absorbing ⟨Kind.Pull, [], true⟩ [Cmd.disconnect, Cmd.message none]).2⟩

/-- C3: For every pull-kind source, a payload-less `message()` (a pull) on
a live connection is answered with exactly one `onNext` or exactly one
`onDisconnect` — the emitted event list is a singleton, never empty, never
longer, never a mix. -/
theorem pull_message_single_response {T E : Type} (s : ConnState T E)
    (hk : s.kind = Kind.Pull) (ht : s.terminated = false) :
    (∃ x, (messageStep s none).2 = [Event.onNext x]) ∨
    (∃ e, (messageStep s none).2 = [Event.onDisconnect e]) := by
  cases hr : s.remaining with
  | nil => exact Or.inr ⟨none, by simp [messageStep, ht, hk, hr]⟩
  | cons hd tl =>
    cases hd with
    | ok x => exact Or.inl ⟨x, by simp [messageStep, ht, hk, hr]⟩
    | error e => exact Or.inr ⟨some e, by simp [messageStep, ht, hk, hr]⟩

/-- Witness for C3 at a concrete live pull connection. -/
theorem pull_message_single_response_witness :
    (∃ x, (messageStep (⟨Kind.Pull, [Except.ok 5], false⟩ : ConnState Nat Unit) none).2 =
      [Event.onNext x]) ∨
    (∃ e, (messageStep (⟨Kind.Pull, [Except.ok 5], false⟩ : ConnState Nat Unit) none).2 =
      [Event.onDisconnect e]) :=
  pull_message_single_response ⟨Kind.Pull, [Except.ok 5], false⟩ rfl rfl

/-- C5: An internal failure of a source is delivered as exactly one
`onDisconnect(error)` call carrying the error payload, after which the
source stops (no further event on any later call); and for the
synchronous emission trace of a source, there is always exactly one
terminal `onDisconnect`, whose payload is the first internal failure when
one occurs and absent (clean end of stream) otherwise — the source never
ends an emission without a terminal notification. -/
theorem failure_one_onDisconnect_then_stop {T E : Type} (s : ConnState T E)
    (e : E) (rest l : List (Except E T)) (cs : List (Cmd Unit)) :
    (s.kind = Kind.Pull → s.terminated = false → s.remaining = Except.error e :: rest →
      messageStep s none =
        ({ s with remaining := [], terminated := true }, [Event.onDisconnect (some e)]) ∧
      runCmds (messageStep s none).1 cs = ((messageStep s none).1, [])) ∧
    flushEvents l = (okPrefix l).map Event.onNext ++ [Event.onDisconnect (firstError l)] ∧
    (flushEvents l).countP Event.isDisconnect = 1 := by
  refine ⟨?_, flushEvents_eq l, ?_⟩
  · intro hk ht hr
    have hstate : messageStep s none =
        ({ s with remaining := [], terminated := true }, [Event.onDisconnect (some e)]) := by
      simp [messageStep, ht, hk, hr]
    refine ⟨hstate, ?_⟩
    rw [hstate]
    exact runCmds_terminated _ _ rfl
  · rw [flushEvents_eq l]
    simp [List.countP_append, List.countP_cons, Event.isDisconnect]

/-- Witness for C5 at a concrete failing pull source. -/
theorem failure_one_onDisconnect_then_stop_witness :
    messageStep (⟨Kind.Pull, [Except.error 7], false⟩ : ConnState Nat Nat) none =
      ((⟨Kind.Pull, [], true⟩ : ConnState Nat Nat), [Event.onDisconnect (some 7)]) ∧
    runCmds (messageStep (⟨Kind.Pull, [Except.error 7], false⟩ : ConnState Nat Nat) none).1
        [Cmd.message none] =
      ((messageStep (⟨Kind.Pull, [Except.error 7], false⟩ : ConnState Nat Nat) none).1, []) :=
  (failure_one_onDisconnect_then_stop
      (⟨Kind.Pull, [Except.error 7], false⟩ : ConnState Nat Nat) 7 [] []
      [Cmd.message none]).1 rfl rfl rfl

/-- C10: The `async` flag of a `Protocol` is three-valued: it is `true`,
`false`, or absent; `true` means every item is emitted asynchronously,
`false` means every item is emitted synchronously, and an absent flag
constrains nothing because synchronicity may vary among items.
`SyncProtocol` and `AsyncProtocol` are the refinements of `Protocol`
fixing `async` to `false` and `true` respectively. -/
theorem protocol_async_three_valued (p : Protocol) (sp : SyncProtocol)
    (ap : AsyncProtocol) (tr : List Bool) :
    (p.async = some true ∨ p.async = some false ∨ p.async = none) ∧
    (p.async = some true → (conformsProtocol p tr ↔ ∀ b ∈ tr, b = true)) ∧
    (p.async = some false → (conformsProtocol p tr ↔ ∀ b ∈ tr, b = false)) ∧
    (p.async = none → conformsProtocol p tr) ∧
    (sp.toProtocol.async = some false ∧
      (conformsProtocol sp.toProtocol tr ↔ ∀ b ∈ tr, b = false)) ∧
    (ap.toProtocol.async = some true ∧
      (conformsProtocol ap.toProtocol tr ↔ ∀ b ∈ tr, b = true)) := by
  refine ⟨?_, ?_, ?_, ?_, ⟨sp.async_is_false, ?_⟩, ⟨ap.async_is_true, ?_⟩⟩
  · rcases h : p.async with _ | b
    · exact Or.inr (Or.inr rfl)
    · cases b
      · exact Or.inr (Or.inl rfl)
      · exact Or.inl rfl
  · intro h; simp [conformsProtocol, h]
  · intro h; simp [conformsProtocol, h]
  · intro h; simp [conformsProtocol, h]
  · simp [conformsProtocol, sp.async_is_false]
  · simp [conformsProtocol, ap.async_is_true]

/-- Witness for C10 at a concrete all-asynchronous protocol and trace. -/
theorem protocol_async_three_valued_witness :
    conformsProtocol ⟨"evt", some true⟩ [true, true] ↔
      ∀ b ∈ [true, true], b = true :=
  (protocol_async_three_valued ⟨"evt", some true⟩ ⟨⟨"syn", some false⟩, rfl⟩
      ⟨⟨"asy", some true⟩, rfl⟩ [true, true]).2.1 rfl

end Sounk
